import Mathlib

/-!
Verification of the `go-1sat-ord` library (package `ordinals`).

This file gives a shallow embedding, in Lean 4, of the parts of the Go
source that the verified properties are about, and proves (or refutes)
those properties.

Modelling conventions, used throughout:

* Go `uint64` values are modelled as `Nat`; wherever the source can
  overflow/underflow (the running token totals in the transfer builders)
  the arithmetic is done explicitly modulo `2 ^ 64` (`U64`, `u64add`,
  `u64sub`).
* Go `float64` display amounts are modelled as exact rationals (`ℚ`).
  `math.Round` (round half away from zero) is `mathRound`; the Go
  conversion `uint64(f)` (truncation toward zero) is `uint64OfFloat`.
* External collaborators (the go-sdk script/fee/signing libraries) are
  modelled symbolically: locking scripts are a `Script` inductive,
  address derivation from a public key is an opaque-by-construction
  injection `addressOfPubKey`, and the outcome of the external
  `tx.Fee` / `tx.Sign` calls is passed to each builder as an explicit
  `Option String` (the error text reported by the library, `none` on
  success), so that theorems can quantify over every possible outcome
  of the external calls.
* Private keys are modelled as opaque identifiers (`Key := Nat`); a
  `nil` key pointer is `Option.none`.
-/

namespace OrdinalsLib

instance exceptDecidableEq {ε α : Type} [DecidableEq ε] [DecidableEq α] :
    DecidableEq (Except ε α)
  | .ok a, .ok b =>
    if h : a = b then .isTrue (by rw [h])
    else .isFalse (by intro he; cases he; exact h rfl)
  | .ok _, .error _ => .isFalse (by intro h; cases h)
  | .error _, .ok _ => .isFalse (by intro h; cases h)
  | .error e, .error f =>
    if h : e = f then .isTrue (by rw [h])
    else .isFalse (by intro he; cases he; exact h rfl)

/-- `2 ^ 64`, the modulus of Go `uint64` arithmetic. -/
def U64 : Nat := 2 ^ 64

/-- Go `uint64` addition (`a + b` with wraparound). -/
def u64add (a b : Nat) : Nat := (a + b) % U64

/-- Go `uint64` subtraction (`a - b` with wraparound); both arguments are
assumed already reduced mod `2 ^ 64`, as every stored `uint64` is. -/
def u64sub (a b : Nat) : Nat := (a + U64 - b) % U64

/-- Go `math.Round`: round half away from zero
(`src` uses it only on nonnegative products). -/
def mathRound (q : ℚ) : ℤ :=
  if 0 ≤ q then ⌊q + 1 / 2⌋ else ⌈q - 1 / 2⌉

/-- The Go conversion `uint64(f)` of a `float64`: truncation toward zero.
(For negative or out-of-range floats the Go spec leaves the result
undefined; the model maps negatives to `0`.) -/
def uint64OfFloat (q : ℚ) : Nat := ⌊q⌋.toNat

/-- `src/types.go` `Utxo`: txid, output index, locking script hex, value. -/
structure Utxo where
  txid : String
  vout : Nat
  scriptPubKey : String
  satoshis : Nat
  deriving DecidableEq, Repr

/-- `src/types.go` `NftUtxo`: a `Utxo` tagged with content type and
collection id. -/
structure NftUtxo extends Utxo where
  contentType : String
  collectionId : String
  deriving DecidableEq, Repr

/-- `src/types.go` `TokenUtxo`: a `Utxo` tagged with token id, protocol,
raw integer amount and decimals. -/
structure TokenUtxo extends Utxo where
  tokenId : String
  protocol : String
  amount : Nat
  decimals : Nat
  deriving DecidableEq, Repr

/-- `src/types.go` `TokenDistribution`: address, display (float) amount,
omit-metadata flag. -/
structure TokenDistribution where
  address : String
  tokens : ℚ
  omitMetadata : Bool
  deriving DecidableEq, Repr

/-- `src/types.go` `TokenSplitConfig`: desired number of change outputs,
optional per-output (float) threshold, omit-metadata flag. -/
structure TokenSplitConfig where
  outputs : Nat
  threshold : Option ℚ
  omitMetadata : Bool
  deriving DecidableEq, Repr

/-! ## Token change splitting (`createSplitTokenOutputs`)

`src/tokens.go` lines 299-371 and `src/unnamed/part_003` lines 373-451
contain the identical split arithmetic; only the emitted scripts differ.
The amount computation is factored out here.

`splitLoop q n left` models the source loop
`for i := 0; i < outputs && tokensLeft > 0; i++ { ... }`
re-indexed by the number `n` of iterations still allowed
(`n = outputs - i`, so the source's last-index test `i == outputs-1`
becomes `n = 1`). -/

/-- The distribution loop of `createSplitTokenOutputs`: emit `q`
(`tokensPerSplit`) per output, the last allowed output (or an output
where fewer than `q` tokens remain) takes everything left; stop once
nothing is left. -/
def splitLoop (q : Nat) : Nat → Nat → List Nat
  | 0, _ => []
  | n + 1, left =>
    if 0 < left then
      let amt := if n = 0 ∨ left < q then left else q
      amt :: splitLoop q n (left - amt)
    else []

/-- The threshold-driven shrinkage of the output count in
`createSplitTokenOutputs` (`src/tokens.go` lines 312-323): if the
per-output share would fall below a positive threshold, shrink the
count to `remaining / threshold` (at least 1). -/
def shrunkOutputCount (remaining k thr : Nat) : Nat :=
  if remaining / k < thr ∧ 0 < thr then
    let o := remaining / thr
    if o = 0 then 1 else o
  else k

/-- `src/tokens.go` lines 306-310: the per-output threshold defaults to 0
when unset and is otherwise converted with
`uint64(*config.SplitConfig.Threshold)`. -/
def natThreshold : Option ℚ → Nat
  | some t => uint64OfFloat t
  | none => 0

/-- The list of raw token amounts emitted by `createSplitTokenOutputs`
(`src/tokens.go` lines 299-371) for a remaining balance, a configured
output count (a positive Go `int` at every call site, modelled as `Nat`)
and the optional float threshold. -/
def createSplitAmounts (remaining k : Nat) (threshold : Option ℚ) : List Nat :=
  let thr : Nat := natThreshold threshold
  let outs := shrunkOutputCount remaining k thr
  splitLoop (remaining / outs) outs remaining

theorem shrunkOutputCount_pos (remaining k thr : Nat) (hk : 1 ≤ k) :
    1 ≤ shrunkOutputCount remaining k thr := by
  unfold shrunkOutputCount
  split
  · dsimp only
    split
    · exact le_refl 1
    · next h => exact Nat.one_le_iff_ne_zero.mpr h
  · exact hk

/-- Closed form of `splitLoop` on the states it is actually run from:
`n` further non-last outputs, strictly more than `q * n` tokens left. -/
theorem splitLoop_closed_form (q : Nat) :
    ∀ n left, q * n < left →
      splitLoop q (n + 1) left = List.replicate n q ++ [left - q * n] := by
  intro n
  induction n with
  | zero =>
    intro left hlt
    rw [Nat.mul_zero] at hlt
    simp [splitLoop, hlt]
  | succ m ih =>
    intro left hlt
    have hq : q ≤ left :=
      le_trans (Nat.le_mul_of_pos_right q (Nat.succ_pos m)) (Nat.le_of_lt hlt)
    have hpos : 0 < left := lt_of_le_of_lt (Nat.zero_le _) hlt
    have hnotlt : ¬ left < q := not_lt.mpr hq
    have hcond : ¬ (m + 1 = 0 ∨ left < q) := by
      push_neg
      exact ⟨Nat.succ_ne_zero m, hq⟩
    have hrec : q * m < left - q := by
      have hqm : q * (m + 1) = q * m + q := by ring
      omega
    rw [splitLoop, if_pos hpos]
    simp only [if_neg hcond]
    rw [ih (left - q) hrec]
    have heq : left - q - q * m = left - q * (m + 1) := by
      have hqm : q * (m + 1) = q * m + q := by ring
      omega
    rw [heq]
    simp [List.replicate_succ]

/-- For a positive remainder the quotient times (count minus one) is
strictly below the remainder, the state `splitLoop` starts from. -/
theorem div_mul_pred_lt (remaining outs : Nat) (houts : 1 ≤ outs)
    (hrem : 0 < remaining) : remaining / outs * (outs - 1) < remaining := by
  set q := remaining / outs with hq
  have hqo : q * outs ≤ remaining := Nat.div_mul_le_self remaining outs
  obtain ⟨o, rfl⟩ : ∃ o, outs = o + 1 := ⟨outs - 1, by omega⟩
  have key : q * (o + 1 - 1) + q = q * (o + 1) := by
    simp only [Nat.add_sub_cancel]
    ring
  rcases Nat.eq_zero_or_pos q with h0 | hqpos
  · rw [h0]
    simpa using hrem
  · omega

/-- Closed form of the split loop started, as the source starts it, at
quotient `remaining / outs`. -/
theorem splitLoop_div_eq (remaining outs : Nat) (houts : 1 ≤ outs) :
    splitLoop (remaining / outs) outs remaining =
      if remaining = 0 then ([] : List Nat)
      else
        List.replicate (outs - 1) (remaining / outs) ++
          [remaining - remaining / outs * (outs - 1)] := by
  obtain ⟨o, rfl⟩ : ∃ o, outs = o + 1 := ⟨outs - 1, by omega⟩
  by_cases hrem : remaining = 0
  · subst hrem
    simp [splitLoop]
  · have hpos : 0 < remaining := Nat.pos_of_ne_zero hrem
    have hlt : remaining / (o + 1) * (o + 1 - 1) < remaining :=
      div_mul_pred_lt remaining (o + 1) (by omega) hpos
    have hlt' : remaining / (o + 1) * o < remaining := by simpa using hlt
    rw [if_neg hrem,
      splitLoop_closed_form (remaining / (o + 1)) o remaining hlt']
    simp

theorem createSplitAmounts_eq (remaining k : Nat) (threshold : Option ℚ)
    (hk : 1 ≤ k) :
    createSplitAmounts remaining k threshold =
      if remaining = 0 then ([] : List Nat)
      else
        List.replicate
            (shrunkOutputCount remaining k (natThreshold threshold) - 1)
            (remaining / shrunkOutputCount remaining k (natThreshold threshold))
          ++ [remaining -
              remaining /
                  shrunkOutputCount remaining k (natThreshold threshold) *
                (shrunkOutputCount remaining k (natThreshold threshold) - 1)] := by
  have houts1 : 1 ≤ shrunkOutputCount remaining k (natThreshold threshold) :=
    shrunkOutputCount_pos remaining k _ hk
  unfold createSplitAmounts
  exact splitLoop_div_eq remaining _ houts1

/-- C2. For every remaining raw amount and every configured split output
count `k ≥ 1` (with any optional per-output float threshold), the amounts
emitted by `createSplitTokenOutputs` (`src/tokens.go` lines 299-371,
identical arithmetic in `src/unnamed/part_003` lines 373-451) sum exactly
to `remaining`; every emitted amount except the last equals the integer
quotient `remaining / outs` for the threshold-shrunk count `outs`, and
the last emitted amount absorbs the integer-division remainder. -/
theorem createSplitAmounts_conservation (remaining k : Nat)
    (threshold : Option ℚ) (hk : 1 ≤ k) :
    (createSplitAmounts remaining k threshold).sum = remaining ∧
    (∀ i : Nat, i + 1 < (createSplitAmounts remaining k threshold).length →
      (createSplitAmounts remaining k threshold)[i]? =
        some (remaining /
          shrunkOutputCount remaining k (natThreshold threshold))) ∧
    (0 < remaining →
      (createSplitAmounts remaining k threshold).getLast? =
        some (remaining -
          remaining / shrunkOutputCount remaining k (natThreshold threshold) *
            (shrunkOutputCount remaining k (natThreshold threshold) - 1))) := by
  rw [createSplitAmounts_eq remaining k threshold hk]
  set outs := shrunkOutputCount remaining k (natThreshold threshold) with houts
  have houts1 : 1 ≤ outs := shrunkOutputCount_pos remaining k _ hk
  by_cases hrem : remaining = 0
  · subst hrem
    simp
  · have hpos : 0 < remaining := Nat.pos_of_ne_zero hrem
    have hlt : remaining / outs * (outs - 1) < remaining :=
      div_mul_pred_lt remaining outs houts1 hpos
    rw [if_neg hrem]
    have hc : (outs - 1) * (remaining / outs) = remaining / outs * (outs - 1) :=
      Nat.mul_comm _ _
    refine ⟨?_, ?_, ?_⟩
    · simp only [List.sum_append, List.sum_replicate, List.sum_cons,
        List.sum_nil, smul_eq_mul]
      omega
    · intro i hi
      simp only [List.length_append, List.length_replicate,
        List.length_cons, List.length_nil] at hi
      have hilt : i < outs - 1 := by omega
      rw [List.getElem?_append]
      simp [hilt]
    · intro _
      exact List.getLast?_concat _

/-- Witness for C2: splitting 10 remaining tokens into 3 outputs with no
threshold. -/
theorem createSplitAmounts_conservation_witness :
    (createSplitAmounts 10 3 none).sum = 10 ∧
    (∀ i : Nat, i + 1 < (createSplitAmounts 10 3 none).length →
      (createSplitAmounts 10 3 none)[i]? =
        some (10 / shrunkOutputCount 10 3 (natThreshold none))) ∧
    (0 < 10 →
      (createSplitAmounts 10 3 none).getLast? =
        some (10 - 10 / shrunkOutputCount 10 3 (natThreshold none) *
          (shrunkOutputCount 10 3 (natThreshold none) - 1))) :=
  createSplitAmounts_conservation 10 3 none (by decide)

/-! ## Token amount conversion (`src/token_utils.go` lines 42-71)

Go `float64` arithmetic is modelled by exact rationals; every concrete
amount exercised below is exactly representable, and the division /
multiplication by a power of ten is modelled exactly. -/

/-- `ToToken` (`src/token_utils.go` lines 44-50): raw → display,
`float64(amount) / math.Pow10(decimals)`. -/
def ToToken (amount : Nat) (decimals : Nat) : ℚ :=
  (amount : ℚ) / (10 : ℚ) ^ decimals

/-- `FromToken` (`src/token_utils.go` lines 54-71): display → raw.
The source `panic`s on a negative amount and on overflow past
`math.Pow(2, 64) / math.Pow10(decimals)`; panics are modelled as
`Except.error` carrying the panic message. -/
def FromToken (amount : ℚ) (decimals : Nat) : Except String Nat :=
  if amount < 0 then
    .error "FromToken cannot handle negative values directly"
  else if (2 : ℚ) ^ 64 / (10 : ℚ) ^ decimals < amount then
    .error "Value too large"
  else
    .ok (mathRound (amount * (10 : ℚ) ^ decimals)).toNat

theorem ToToken_nonneg (amount decimals : Nat) :
    0 ≤ ToToken amount decimals :=
  div_nonneg (Nat.cast_nonneg amount) (pow_nonneg (by norm_num) decimals)

/-! ## Token UTXO selection (`src/token_utils.go` lines 73-160) -/

/-- `src/token_utils.go` lines 13-22: the four strategy constants. -/
def TokenSelectionStrategySmallestFirst : String := "smallest"

def TokenSelectionStrategyLargestFirst : String := "largest"

def TokenSelectionStrategyRetainOrder : String := "retain"

def TokenSelectionStrategyRandom : String := "random"

/-- `src/token_utils.go` lines 25-30. -/
structure TokenSelectionOptions where
  inputStrategy : String
  outputStrategy : String
  deriving DecidableEq, Repr

/-- `src/token_utils.go` lines 33-40: the selection result (the display
total is a Go `float64`, modelled as `ℚ`). -/
structure TokenSelectionResult where
  selectedUtxos : List TokenUtxo
  totalSelected : ℚ
  isEnough : Bool
  deriving DecidableEq, Repr

/-- `src/token_utils.go` lines 81-97: a nil options pointer and empty
strategy strings default to retain-order. -/
def resolveOptions : Option TokenSelectionOptions → TokenSelectionOptions
  | none => ⟨TokenSelectionStrategyRetainOrder, TokenSelectionStrategyRetainOrder⟩
  | some o =>
    ⟨if o.inputStrategy = "" then TokenSelectionStrategyRetainOrder
      else o.inputStrategy,
     if o.outputStrategy = "" then TokenSelectionStrategyRetainOrder
      else o.outputStrategy⟩

/-- One swap of `rand.Shuffle`'s Fisher-Yates pass (identity when an index
is out of range, which the shuffle never produces). -/
def listSwap (l : List TokenUtxo) (i j : Nat) : List TokenUtxo :=
  if h : i < l.length ∧ j < l.length then
    (l.set i (l.get ⟨j, h.2⟩)).set j (l.get ⟨i, h.1⟩)
  else l

/-- The Fisher-Yates pass of `rand.Shuffle`: for `i` from `n-1` down to 1,
swap position `i` with a drawn position `j ≤ i`.  The library's random
draws are an explicit oracle `draws`; the drawn index is reduced
`mod (i+1)` exactly as `rand.Intn(i+1)` guarantees. -/
def shuffleIter (draws : Nat → Nat) : Nat → List TokenUtxo → List TokenUtxo
  | 0, l => l
  | i + 1, l => shuffleIter draws i (listSwap l (i + 1) (draws (i + 1) % (i + 2)))

/-- `rand.Shuffle(len(l), swap)` under the draw oracle `draws`. -/
def shuffleWith (draws : Nat → Nat) (l : List TokenUtxo) : List TokenUtxo :=
  shuffleIter draws (l.length - 1) l

/-- The strategy switch of `SelectTokenUtxos`
(`src/token_utils.go` lines 104-120 and 137-153): ascending sort,
descending sort, shuffle, or leave untouched. -/
def applySelectionStrategy (strat : String) (draws : Nat → Nat)
    (l : List TokenUtxo) : List TokenUtxo :=
  if strat = TokenSelectionStrategySmallestFirst then
    l.mergeSort (fun a b => decide (a.amount < b.amount))
  else if strat = TokenSelectionStrategyLargestFirst then
    l.mergeSort (fun a b => decide (b.amount < a.amount))
  else if strat = TokenSelectionStrategyRandom then
    shuffleWith draws l
  else l

/-- The accumulation loop of `SelectTokenUtxos`
(`src/token_utils.go` lines 122-134): take items in order, accumulating
the display total, stopping early only when the total reaches a strictly
positive requirement. -/
def selectWalk (required : ℚ) (decimals : Nat) :
    List TokenUtxo → List TokenUtxo → ℚ → List TokenUtxo × ℚ
  | [], selected, total => (selected, total)
  | u :: rest, selected, total =>
    let selected := selected ++ [u]
    let total := total + ToToken u.amount decimals
    if required ≤ total ∧ 0 < required then (selected, total)
    else selectWalk required decimals rest selected total

/-- `SelectTokenUtxos` (`src/token_utils.go` lines 75-160).  The two
`rand.Shuffle` call sites receive their own draw oracles. -/
def SelectTokenUtxos (tokenUtxos : List TokenUtxo) (requiredTokens : ℚ)
    (decimals : Nat) (options : Option TokenSelectionOptions)
    (drawsIn drawsOut : Nat → Nat) : TokenSelectionResult :=
  let opts := resolveOptions options
  let sortedUtxos := applySelectionStrategy opts.inputStrategy drawsIn tokenUtxos
  let walk := selectWalk requiredTokens decimals sortedUtxos [] 0
  let selected :=
    if opts.outputStrategy ≠ TokenSelectionStrategyRetainOrder then
      applySelectionStrategy opts.outputStrategy drawsOut walk.1
    else walk.1
  { selectedUtxos := selected
    totalSelected := walk.2
    isEnough := decide (requiredTokens ≤ walk.2) }

/-- The display-amount sum of a list of token UTXOs. -/
def displaySum (decimals : Nat) (l : List TokenUtxo) : ℚ :=
  (l.map (fun u => ToToken u.amount decimals)).sum

theorem displaySum_nonneg (decimals : Nat) (l : List TokenUtxo) :
    0 ≤ displaySum decimals l := by
  induction l with
  | nil => simp [displaySum]
  | cons u rest ih =>
    have := ToToken_nonneg u.amount decimals
    simp only [displaySum, List.map_cons, List.sum_cons]
    have ih' : (0 : ℚ) ≤ (rest.map (fun u => ToToken u.amount decimals)).sum := ih
    linarith

theorem get_cons_set_perm (l : List TokenUtxo) :
    ∀ (m : Nat) (a : TokenUtxo) (hm : m < l.length),
      List.Perm (l.get ⟨m, hm⟩ :: l.set m a) (a :: l) := by
  induction l with
  | nil => intro m a hm; simp at hm
  | cons b t ih =>
    intro m a hm
    cases m with
    | zero =>
      simpa using List.Perm.swap a b t
    | succ k =>
      have hk : k < t.length := by simpa using hm
      have h1 : List.Perm (t.get ⟨k, hk⟩ :: b :: t.set k a)
          (b :: t.get ⟨k, hk⟩ :: t.set k a) := List.Perm.swap _ _ _
      have h2 : List.Perm (b :: t.get ⟨k, hk⟩ :: t.set k a) (b :: a :: t) :=
        (ih k a hk).cons b
      have h3 : List.Perm (b :: a :: t) (a :: b :: t) := List.Perm.swap _ _ _
      simpa using (h1.trans h2).trans h3

theorem set_set_swap_perm (l : List TokenUtxo) :
    ∀ (i j : Nat) (hi : i < l.length) (hj : j < l.length),
      List.Perm ((l.set i (l.get ⟨j, hj⟩)).set j (l.get ⟨i, hi⟩)) l := by
  induction l with
  | nil => intro i j hi; simp at hi
  | cons a t ih =>
    intro i j hi hj
    cases i with
    | zero =>
      cases j with
      | zero => simp
      | succ m =>
        have hm : m < t.length := by simpa using hj
        simpa using get_cons_set_perm t m a hm
    | succ n =>
      cases j with
      | zero =>
        have hn : n < t.length := by simpa using hi
        simpa using get_cons_set_perm t n a hn
      | succ m =>
        have hn : n < t.length := by simpa using hi
        have hm : m < t.length := by simpa using hj
        simpa using (ih n m hn hm).cons a

theorem listSwap_perm (l : List TokenUtxo) (i j : Nat) :
    List.Perm (listSwap l i j) l := by
  unfold listSwap
  split
  · next h => exact set_set_swap_perm l i j h.1 h.2
  · exact List.Perm.refl l

theorem shuffleIter_perm (draws : Nat → Nat) :
    ∀ (n : Nat) (l : List TokenUtxo), List.Perm (shuffleIter draws n l) l := by
  intro n
  induction n with
  | zero => intro l; exact List.Perm.refl l
  | succ i ih =>
    intro l
    exact (ih _).trans (listSwap_perm l (i + 1) (draws (i + 1) % (i + 2)))

theorem shuffleWith_perm (draws : Nat → Nat) (l : List TokenUtxo) :
    List.Perm (shuffleWith draws l) l :=
  shuffleIter_perm draws (l.length - 1) l

theorem applySelectionStrategy_perm (strat : String) (draws : Nat → Nat)
    (l : List TokenUtxo) : List.Perm (applySelectionStrategy strat draws l) l := by
  unfold applySelectionStrategy
  split
  · exact List.mergeSort_perm l _
  · split
    · exact List.mergeSort_perm l _
    · split
      · exact shuffleWith_perm draws l
      · exact List.Perm.refl l

theorem selectWalk_drain_of_nonpos (required : ℚ) (decimals : Nat)
    (hreq : required ≤ 0) :
    ∀ (l selected : List TokenUtxo) (total : ℚ),
      selectWalk required decimals l selected total =
        (selected ++ l, total + displaySum decimals l) := by
  intro l
  induction l with
  | nil => intro selected total; simp [selectWalk, displaySum]
  | cons u rest ih =>
    intro selected total
    have hcond : ¬ (required ≤ total + ToToken u.amount decimals ∧
        0 < required) := by
      rintro ⟨-, hpos⟩
      linarith
    rw [selectWalk]
    simp only [if_neg hcond]
    rw [ih]
    simp [displaySum, List.append_assoc]
    ring

theorem selectWalk_drain_of_insufficient (required : ℚ) (decimals : Nat) :
    ∀ (l selected : List TokenUtxo) (total : ℚ),
      total + displaySum decimals l < required →
      selectWalk required decimals l selected total =
        (selected ++ l, total + displaySum decimals l) := by
  intro l
  induction l with
  | nil => intro selected total _; simp [selectWalk, displaySum]
  | cons u rest ih =>
    intro selected total hlt
    have hrest : 0 ≤ displaySum decimals rest := displaySum_nonneg _ _
    have hsum : displaySum decimals (u :: rest) =
        ToToken u.amount decimals + displaySum decimals rest := by
      simp [displaySum]
    have hcond : ¬ (required ≤ total + ToToken u.amount decimals ∧
        0 < required) := by
      rintro ⟨hle, -⟩
      rw [hsum] at hlt
      linarith
    rw [selectWalk]
    simp only [if_neg hcond]
    rw [ih (selected ++ [u]) (total + ToToken u.amount decimals)
      (by rw [hsum] at hlt; linarith)]
    rw [hsum]
    simp [List.append_assoc]
    ring

theorem displaySum_of_perm (decimals : Nat) {l l' : List TokenUtxo}
    (h : List.Perm l l') : displaySum decimals l = displaySum decimals l' :=
  List.Perm.sum_eq (h.map _)

/-- C5. For every input list, decimals value and options record (any
strategies, any random draws), a required amount `≤ 0` makes
`SelectTokenUtxos` select every input UTXO (as a permutation: the
strategies may reorder), return the display-amount sum of the whole
input as its total, and report `isEnough = true` — on the empty list
included, where the total is 0. -/
theorem selectTokenUtxos_nonpos_required (utxos : List TokenUtxo)
    (required : ℚ) (decimals : Nat) (options : Option TokenSelectionOptions)
    (dIn dOut : Nat → Nat) (hreq : required ≤ 0) :
    List.Perm
        (SelectTokenUtxos utxos required decimals options dIn dOut).selectedUtxos
        utxos ∧
    (SelectTokenUtxos utxos required decimals options dIn dOut).totalSelected =
      displaySum decimals utxos ∧
    (SelectTokenUtxos utxos required decimals options dIn dOut).isEnough =
      true := by
  unfold SelectTokenUtxos
  dsimp only
  rw [selectWalk_drain_of_nonpos required decimals hreq]
  have hperm1 : List.Perm
      (applySelectionStrategy (resolveOptions options).inputStrategy dIn utxos)
      utxos := applySelectionStrategy_perm _ _ _
  have hsum : displaySum decimals
      (applySelectionStrategy (resolveOptions options).inputStrategy dIn utxos) =
      displaySum decimals utxos := displaySum_of_perm decimals hperm1
  refine ⟨?_, ?_, ?_⟩
  · dsimp only
    split
    · exact (applySelectionStrategy_perm _ _ _).trans (by simpa using hperm1)
    · simpa using hperm1
  · dsimp only
    rw [hsum]
    ring
  · dsimp only
    rw [decide_eq_true_eq, hsum]
    have := displaySum_nonneg decimals utxos
    linarith

/-- C6. For every input list, options record and required amount strictly
above the total display sum, `SelectTokenUtxos` selects the whole input
list (as a permutation), returns the full display sum as its total, and
reports `isEnough = false`. -/
theorem selectTokenUtxos_insufficient (utxos : List TokenUtxo)
    (required : ℚ) (decimals : Nat) (options : Option TokenSelectionOptions)
    (dIn dOut : Nat → Nat) (_hpos : 0 < required)
    (hsum : displaySum decimals utxos < required) :
    List.Perm
        (SelectTokenUtxos utxos required decimals options dIn dOut).selectedUtxos
        utxos ∧
    (SelectTokenUtxos utxos required decimals options dIn dOut).totalSelected =
      displaySum decimals utxos ∧
    (SelectTokenUtxos utxos required decimals options dIn dOut).isEnough =
      false := by
  unfold SelectTokenUtxos
  dsimp only
  have hperm1 : List.Perm
      (applySelectionStrategy (resolveOptions options).inputStrategy dIn utxos)
      utxos := applySelectionStrategy_perm _ _ _
  have hsum1 : displaySum decimals
      (applySelectionStrategy (resolveOptions options).inputStrategy dIn utxos) =
      displaySum decimals utxos := displaySum_of_perm decimals hperm1
  rw [selectWalk_drain_of_insufficient required decimals _ _ 0
    (by rw [hsum1]; linarith)]
  refine ⟨?_, ?_, ?_⟩
  · dsimp only
    split
    · exact (applySelectionStrategy_perm _ _ _).trans (by simpa using hperm1)
    · simpa using hperm1
  · dsimp only
    rw [hsum1]
    ring
  · dsimp only
    refine decide_eq_false ?_
    rw [hsum1]
    intro hle
    linarith

/-- The five token UTXOs of `src/token_utils_test.go` (raw amounts
100..500 at 2 decimals). -/
def sampleTokenUtxos : List TokenUtxo :=
  [⟨⟨"tx1", 0, "script1", 1⟩, "token1", "bsv-21", 100, 2⟩,
   ⟨⟨"tx2", 1, "script2", 1⟩, "token1", "bsv-21", 200, 2⟩,
   ⟨⟨"tx3", 2, "script3", 1⟩, "token1", "bsv-21", 300, 2⟩,
   ⟨⟨"tx4", 3, "script4", 1⟩, "token1", "bsv-21", 400, 2⟩,
   ⟨⟨"tx5", 4, "script5", 1⟩, "token1", "bsv-21", 500, 2⟩]

/-- Witness for C5 at the test-suite UTXO list with required amount 0. -/
theorem selectTokenUtxos_nonpos_required_witness :
    List.Perm
        (SelectTokenUtxos sampleTokenUtxos 0 2 none id id).selectedUtxos
        sampleTokenUtxos ∧
    (SelectTokenUtxos sampleTokenUtxos 0 2 none id id).totalSelected =
      displaySum 2 sampleTokenUtxos ∧
    (SelectTokenUtxos sampleTokenUtxos 0 2 none id id).isEnough = true :=
  selectTokenUtxos_nonpos_required sampleTokenUtxos 0 2 none id id le_rfl

/-- Witness for C6 at the test-suite UTXO list with required amount 20
(total available 15). -/
theorem selectTokenUtxos_insufficient_witness :
    List.Perm
        (SelectTokenUtxos sampleTokenUtxos 20 2 none id id).selectedUtxos
        sampleTokenUtxos ∧
    (SelectTokenUtxos sampleTokenUtxos 20 2 none id id).totalSelected =
      displaySum 2 sampleTokenUtxos ∧
    (SelectTokenUtxos sampleTokenUtxos 20 2 none id id).isEnough = false :=
  selectTokenUtxos_insufficient sampleTokenUtxos 20 2 none id id
    (by norm_num)
    (by
      show displaySum 2 sampleTokenUtxos < 20
      norm_num [displaySum, sampleTokenUtxos, ToToken])

/-! ## Frame property of `SelectTokenUtxos` (C9)

To state that the function does not mutate the caller's slice, slice
allocations are made explicit: a heap is a list of allocations, the
caller's slice is the allocation at index `p`, and every
slice-mutating step of the source (`copy` into the fresh allocation
made at line 100, the `sort.Slice` / `rand.Shuffle` writes at lines
104-120) is a write to the heap.  The second fresh allocation (the
`selectedUtxos` accumulator, built by `append` and reordered at lines
137-153) never aliases the caller's slice either; it is carried as a
plain value. -/

/-- `SelectTokenUtxos` with explicit slice allocations.  Returns the
result together with the final heap. -/
def selectTokenUtxosHeap (heap : List (List TokenUtxo)) (p : Nat)
    (requiredTokens : ℚ) (decimals : Nat)
    (options : Option TokenSelectionOptions)
    (drawsIn drawsOut : Nat → Nat) :
    TokenSelectionResult × List (List TokenUtxo) :=
  let opts := resolveOptions options
  let tokenUtxos := heap.getD p []
  let q := heap.length
  let heap1 := heap ++ [tokenUtxos]
  let heap2 := heap1.set q
    (applySelectionStrategy opts.inputStrategy drawsIn (heap1.getD q []))
  let sortedUtxos := heap2.getD q []
  let walk := selectWalk requiredTokens decimals sortedUtxos [] 0
  let selected :=
    if opts.outputStrategy ≠ TokenSelectionStrategyRetainOrder then
      applySelectionStrategy opts.outputStrategy drawsOut walk.1
    else walk.1
  ({ selectedUtxos := selected
     totalSelected := walk.2
     isEnough := decide (requiredTokens ≤ walk.2) }, heap2)

/-- C9. `SelectTokenUtxos` leaves every pre-existing allocation — the
caller's input slice in particular — untouched: all writes go to the
fresh copy made before reordering.  Moreover the heap-level run returns
exactly the result of the pure model. -/
theorem selectTokenUtxosHeap_frame (heap : List (List TokenUtxo)) (p : Nat)
    (required : ℚ) (decimals : Nat) (options : Option TokenSelectionOptions)
    (dIn dOut : Nat → Nat) (hp : p < heap.length) :
    (selectTokenUtxosHeap heap p required decimals options dIn dOut).2[p]? =
      heap[p]? ∧
    (selectTokenUtxosHeap heap p required decimals options dIn dOut).1 =
      SelectTokenUtxos (heap.getD p []) required decimals options dIn dOut := by
  unfold selectTokenUtxosHeap SelectTokenUtxos
  dsimp only
  have hq : (heap ++ [heap.getD p []]).length = heap.length + 1 := by simp
  have hgetq : ∀ v : List TokenUtxo,
      ((heap ++ [heap.getD p []]).set heap.length v).getD heap.length [] = v := by
    intro v
    have hlen : heap.length < (heap ++ [heap.getD p []]).length := by simp
    simp [List.getD, List.getElem?_set_self, hlen]
  have hcopy : (heap ++ [heap.getD p []]).getD heap.length [] =
      heap.getD p [] := by
    have : (heap ++ [heap.getD p []])[heap.length]? = some (heap.getD p []) := by
      rw [List.getElem?_append_right (Nat.le_refl _)]
      simp
    simp [List.getD, this]
  constructor
  · rw [List.getElem?_set_ne (by omega)]
    exact List.getElem?_append_left hp
  · rw [hgetq, hcopy]

/-- Witness for C9: a one-allocation heap holding the test-suite UTXO
list. -/
theorem selectTokenUtxosHeap_frame_witness :
    (selectTokenUtxosHeap [sampleTokenUtxos] 0 (11 / 2) 2 none id id).2[0]? =
      [sampleTokenUtxos][0]? ∧
    (selectTokenUtxosHeap [sampleTokenUtxos] 0 (11 / 2) 2 none id id).1 =
      SelectTokenUtxos ([sampleTokenUtxos].getD 0 []) (11 / 2) 2 none id id :=
  selectTokenUtxosHeap_frame [sampleTokenUtxos] 0 (11 / 2) 2 none id id
    (by decide)

/-! ## C8: display/raw conversion -/

theorem mathRound_eq_round (x : ℚ) (hx : 0 ≤ x) : mathRound x = round x := by
  rw [mathRound, if_pos hx, round_eq]

/-- C8. `FromToken` returns the round-to-nearest scaling
`round(display * 10 ^ decimals)` for every nonnegative in-range display
amount, and fails (the source panics; panics are modelled as errors)
for every negative display amount instead of returning a value.
Concretely `FromToken 0.5 2 = 50` and `ToToken 100 2 = 1.0`. -/
theorem fromToken_round_spec :
    (∀ (q : ℚ) (d : Nat), 0 ≤ q → q ≤ (2 : ℚ) ^ 64 / (10 : ℚ) ^ d →
      FromToken q d = .ok (round (q * (10 : ℚ) ^ d)).toNat) ∧
    (∀ (q : ℚ) (d : Nat), q < 0 →
      FromToken q d =
        .error "FromToken cannot handle negative values directly") ∧
    FromToken (1 / 2) 2 = .ok 50 ∧
    ToToken 100 2 = 1 := by
  have hmain : ∀ (q : ℚ) (d : Nat), 0 ≤ q → q ≤ (2 : ℚ) ^ 64 / (10 : ℚ) ^ d →
      FromToken q d = .ok (round (q * (10 : ℚ) ^ d)).toNat := by
    intro q d h0 hmax
    rw [FromToken, if_neg (not_lt.mpr h0), if_neg (not_lt.mpr hmax),
      mathRound_eq_round _ (mul_nonneg h0 (pow_nonneg (by norm_num) d))]
  refine ⟨hmain, ?_, ?_, ?_⟩
  · intro q d hneg
    rw [FromToken, if_pos hneg]
  · have h := hmain (1 / 2) 2 (by norm_num)
      (by rw [div_le_div_iff₀] <;> norm_num)
    rw [h]
    norm_num [round_eq]
    rfl
  · norm_num [ToToken]

/-- Witness for C8: the in-range branch applied at `0.5` with 2 decimals
and the failure branch applied at `-1`. -/
theorem fromToken_round_spec_witness :
    (0 : ℚ) ≤ 1 / 2 ∧
    FromToken (1 / 2) 2 = .ok (round ((1 / 2 : ℚ) * (10 : ℚ) ^ 2)).toNat ∧
    FromToken (-1) 0 =
      .error "FromToken cannot handle negative values directly" :=
  ⟨by norm_num,
   fromToken_round_spec.1 (1 / 2) 2 (by norm_num)
     (by rw [div_le_div_iff₀] <;> norm_num),
   fromToken_round_spec.2.1 (-1) 0 (by norm_num)⟩

/-! ## Transactions, scripts and the operation builders

Scripts are produced by the external `go-templates` / go-sdk libraries;
they are modelled symbolically.  `tx.Fee` and `tx.Sign` are external
calls whose outcome each builder model receives as an `Option String`
(`none` = success, `some msg` = the library error text), letting every
theorem quantify over all outcomes of the external calls. -/

/-- An opaque private key (`*ec.PrivateKey`); `Option Key` models the
nullable pointer. -/
abbrev Key := Nat

/-- `script.NewAddressFromPublicKey(k.PubKey(), true)`: external
derivation, modelled as an injection from the key. -/
def addressOfPubKey (k : Key) : String :=
  "address-of-key-" ++ toString k

/-- `script.NewAddressFromString`: external base58check parsing, modelled
as accepting exactly the nonempty strings. -/
def newAddressFromString (s : String) : Except String String :=
  if s = "" then .error "failed to parse address" else .ok s

/-- Symbolic locking scripts. -/
inductive Script where
  | p2pkh (address : String)
  | ordP2pkh (inscription : String) (address : String)
  | bsv21 (op : String) (id : String) (amt : Nat) (inner : Script)
  | opReturn (entries : List (String × String))
  deriving DecidableEq, Repr

/-- Whether a script is a bare payment script. -/
def Script.isP2pkh : Script → Bool
  | .p2pkh _ => true
  | _ => false

structure TxInput where
  txid : String
  vout : Nat
  scriptPubKey : String
  satoshis : Nat
  deriving DecidableEq, Repr

structure TxOutput where
  lockingScript : Script
  satoshis : Nat
  change : Bool
  deriving DecidableEq, Repr

structure Tx where
  inputs : List TxInput
  outputs : List TxOutput
  deriving DecidableEq, Repr

/-- `tx.AddInputFrom` (txid hex decoding is external and modelled as
succeeding). -/
def Tx.addInputFrom (tx : Tx) (u : Utxo) : Tx :=
  { tx with inputs := tx.inputs ++ [⟨u.txid, u.vout, u.scriptPubKey, u.satoshis⟩] }

/-- `tx.AddOutput`. -/
def Tx.addOutput (tx : Tx) (o : TxOutput) : Tx :=
  { tx with outputs := tx.outputs ++ [o] }

def Tx.addOutputs (tx : Tx) (os : List TxOutput) : Tx :=
  { tx with outputs := tx.outputs ++ os }

/-- The empty transaction (`transaction.NewTransaction()`). -/
def newTransaction : Tx := ⟨[], []⟩

def resultIsOk {α : Type} : Except String α → Bool
  | .ok _ => true
  | .error _ => false

/-- The outputs of a build result (empty when the build failed). -/
def resultOutputs : Except String Tx → List TxOutput
  | .ok tx => tx.outputs
  | .error _ => []

/-- The total satoshi value of a UTXO list (`totalIn` in the source). -/
def sumSatoshis (us : List Utxo) : Nat := (us.map (fun u => u.satoshis)).sum

/-- Whether `pat` occurs as a contiguous substring, on the character
lists. -/
def leadsWith : List Char → List Char → Bool
  | _, [] => true
  | [], _ :: _ => false
  | c :: cs, p :: ps => c == p && leadsWith cs ps

def containsSeq (pat : List Char) : List Char → Bool
  | [] => leadsWith [] pat
  | c :: cs => leadsWith (c :: cs) pat || containsSeq pat cs

def containsSubstring (s pat : String) : Bool :=
  containsSeq pat.data s.data

/-- `p2pkh.Unlock(pk, nil)` fails on a nil key; loop bodies thread the
call-site error message. -/
def addInputsWithKey (pk : Option Key) (errMsg : String) :
    List Utxo → Tx → Except String Tx
  | [], tx => .ok tx
  | u :: rest, tx =>
    match pk with
    | none => .error errMsg
    | some _ => addInputsWithKey pk errMsg rest (tx.addInputFrom u)

/-- `PayToAddress` (`src/types.go`). -/
structure PayToAddress where
  address : String
  satoshis : Nat
  deriving DecidableEq, Repr

/-- The additional-payment output loops (`src/inscription.go` lines
86-103, `src/send_ordinals.go` lines 120-137, `src/unnamed/part_000`
lines 36-52). -/
def addPayToOutputs (errAddrMsg : String) :
    List PayToAddress → Tx → Except String Tx
  | [], tx => .ok tx
  | p :: rest, tx =>
    match newAddressFromString p.address with
    | .error _ => .error errAddrMsg
    | .ok addr =>
      addPayToOutputs errAddrMsg rest (tx.addOutput ⟨.p2pkh addr, p.satoshis, false⟩)

/-- The guarded change-output step shared by the builders that only add
change when an address is configured. -/
def addChangeOutput (changeAddress : String) (tx : Tx) : Except String Tx :=
  if changeAddress ≠ "" then
    match newAddressFromString changeAddress with
    | .error _ => .error "failed to create change address"
    | .ok addr => .ok (tx.addOutput ⟨.p2pkh addr, 0, true⟩)
  else .ok tx

/-- `src/types.go` `Destination` (inscription payloads are opaque). -/
structure Destination where
  address : String
  inscription : Option String
  omitMetadata : Bool
  deriving DecidableEq, Repr

/-- `config.SplitConfig != nil && config.SplitConfig.Outputs > 1`. -/
def splitRequested : Option TokenSplitConfig → Bool
  | some sc => decide (1 < sc.outputs)
  | none => false

/-- The token-input loop shared by the two transfer builders. -/
def addTokenInputs (pk : Option Key) (errMsg : String) :
    List TokenUtxo → Tx → Except String Tx
  | [], tx => .ok tx
  | u :: rest, tx =>
    match pk with
    | none => .error errMsg
    | some _ => addTokenInputs pk errMsg rest (tx.addInputFrom u.toUtxo)

/-- `totalTokens += tokenUtxo.Amount` over the token inputs (`uint64`
accumulation). -/
def u64TokenTotal (l : List TokenUtxo) : Nat :=
  l.foldl (fun acc u => u64add acc u.amount) 0

/-- `distributedTokens += uint64(dist.Tokens)` over the distributions
(`uint64` accumulation of the truncated float display amounts). -/
def u64DistTotal (l : List TokenDistribution) : Nat :=
  l.foldl (fun acc d => u64add acc (uint64OfFloat d.tokens)) 0

/-- `src/types.go` `SendOrdinalsConfig`. -/
structure SendOrdinalsConfig where
  paymentUtxos : List Utxo
  ordinals : List NftUtxo
  paymentPk : Option Key
  ordPk : Option Key
  destinations : List Destination
  changeAddress : String
  satsPerKb : Nat
  additionalPayments : List PayToAddress
  enforceUniformSend : Bool
  deriving DecidableEq, Repr

/-- `src/types.go` `CreateOrdinalsConfig`. -/
structure CreateOrdinalsConfig where
  utxos : List Utxo
  destinations : List Destination
  paymentPk : Option Key
  changeAddress : String
  satsPerKb : Nat
  additionalPayments : List PayToAddress
  deriving DecidableEq, Repr

/-- `src/types.go` `SendUtxosConfig`. -/
structure SendUtxosConfig where
  utxos : List Utxo
  paymentPk : Option Key
  payments : List PayToAddress
  changeAddress : String
  satsPerKb : Nat
  deriving DecidableEq, Repr

/-- `src/unnamed/part_004` `BurnOrdinalsConfig` (metadata entries are
opaque key/value pairs). -/
structure BurnOrdinalsConfig where
  paymentUtxos : List Utxo
  paymentPk : Option Key
  ordinals : List NftUtxo
  ordPk : Option Key
  metadata : List (String × String)
  changeAddress : String
  satsPerKb : Nat
  deriving DecidableEq, Repr

/-- `src/types.go` `CancelOrdListingsConfig`. -/
structure CancelOrdListingsConfig where
  utxos : List Utxo
  listingUtxos : List NftUtxo
  ordPk : Option Key
  paymentPk : Option Key
  changeAddress : String
  satsPerKb : Nat
  deriving DecidableEq, Repr

/-- `src/types.go` `TransferBsv21TokenConfig` (shared by both transfer
builder versions; `decimals` is carried but, notably, never read by
either builder). -/
structure TransferBsv21TokenConfig where
  protocol : String
  tokenId : String
  utxos : List Utxo
  inputTokens : List TokenUtxo
  distributions : List TokenDistribution
  paymentPk : Option Key
  ordPk : Option Key
  burn : Bool
  changeAddress : String
  satsPerKb : Nat
  tokenInputMode : String
  splitConfig : Option TokenSplitConfig
  decimals : Nat
  deriving DecidableEq, Repr

/-! ### `SendOrdinals` (`src/send_ordinals.go` lines 13-187) -/

/-- The ordinal-input loop (lines 33-54): per ordinal, the 1-satoshi
check, then the unlocker, then the input. -/
def sendOrdinalsOrdinalInputs (ordPk : Option Key) :
    List NftUtxo → Tx → Except String Tx
  | [], tx => .ok tx
  | o :: rest, tx =>
    if o.satoshis ≠ 1 then
      .error "1Sat Ordinal utxos must have exactly 1 satoshi"
    else
      match ordPk with
      | none => .error "private key is required to sign the ordinal"
      | some _ => sendOrdinalsOrdinalInputs ordPk rest (tx.addInputFrom o.toUtxo)

/-- The destination-output loop (lines 76-117). -/
def sendOrdinalsDestOutputs : List Destination → Tx → Except String Tx
  | [], tx => .ok tx
  | d :: rest, tx =>
    match newAddressFromString d.address with
    | .error _ => .error "failed to create destination address"
    | .ok addr =>
      let s : Script :=
        if d.omitMetadata then .p2pkh addr
        else
          match d.inscription with
          | some insc => .ordP2pkh insc addr
          | none => .p2pkh addr
      sendOrdinalsDestOutputs rest (tx.addOutput ⟨s, 1, false⟩)

/-- Everything `SendOrdinals` does before the external `tx.Fee` call. -/
def sendOrdinalsAssemble (cfg : SendOrdinalsConfig) : Except String Tx :=
  if cfg.enforceUniformSend = true ∧
      cfg.destinations.length ≠ cfg.ordinals.length then
    .error "number of destinations must match number of ordinals being sent"
  else do
    let tx ← sendOrdinalsOrdinalInputs cfg.ordPk cfg.ordinals newTransaction
    let tx ← addInputsWithKey cfg.paymentPk
      "private key is required to sign the payment" cfg.paymentUtxos tx
    let tx ← sendOrdinalsDestOutputs cfg.destinations tx
    let tx ← addPayToOutputs "failed to create payment address"
      cfg.additionalPayments tx
    if cfg.changeAddress = "" ∧ cfg.paymentPk = none then
      .error "either changeAddress or paymentPk is required"
    else addChangeOutput cfg.changeAddress tx

/-- `SendOrdinals`, with the external fee/sign outcomes as oracles
(lines 172-186: an `insufficient funds for fee` error from the fee
library is rewrapped with the total input satoshis). -/
def SendOrdinals (cfg : SendOrdinalsConfig) (feeErr signErr : Option String) :
    Except String Tx := do
  let tx ← sendOrdinalsAssemble cfg
  match feeErr with
  | some m =>
    if m = "insufficient funds for fee" then
      .error ("not enough funds to send ordinals. Total sats in: " ++
        toString (sumSatoshis cfg.paymentUtxos))
    else .error ("failed to calculate fee: " ++ m)
  | none =>
    match signErr with
    | some m => .error ("failed to sign transaction: " ++ m)
    | none => .ok tx

/-! ### `CreateOrdinals` (`src/inscription.go` lines 13-158) -/

/-- The destination loop (lines 44-83): every destination must carry an
inscription. -/
def createOrdinalsDestOutputs : List Destination → Tx → Except String Tx
  | [], tx => .ok tx
  | d :: rest, tx =>
    match d.inscription with
    | none => .error "inscription is required for all destinations"
    | some insc =>
      match newAddressFromString d.address with
      | .error _ => .error "failed to create destination address"
      | .ok addr =>
        let s : Script :=
          if d.omitMetadata then .p2pkh addr else .ordP2pkh insc addr
        createOrdinalsDestOutputs rest (tx.addOutput ⟨s, 1, false⟩)

/-- Everything `CreateOrdinals` does before the external `tx.Fee` call.
Note lines 105-123: the change output is added unconditionally, so an
empty change address fails the (external) address parse. -/
def createOrdinalsAssemble (cfg : CreateOrdinalsConfig) : Except String Tx := do
  let tx ← addInputsWithKey cfg.paymentPk
    "private key is required to sign the transaction" cfg.utxos newTransaction
  let tx ← createOrdinalsDestOutputs cfg.destinations tx
  let tx ← addPayToOutputs "failed to create payment address"
    cfg.additionalPayments tx
  if cfg.changeAddress = "" ∧ cfg.paymentPk = none then
    .error "either changeAddress or paymentPk is required"
  else
    match newAddressFromString cfg.changeAddress with
    | .error _ => .error "failed to create change address"
    | .ok addr => .ok (tx.addOutput ⟨.p2pkh addr, 0, true⟩)

/-- `CreateOrdinals` (lines 143-149 rewrap the insufficient-funds fee
error with the total input satoshis). -/
def CreateOrdinals (cfg : CreateOrdinalsConfig)
    (feeErr signErr : Option String) : Except String Tx := do
  let tx ← createOrdinalsAssemble cfg
  match feeErr with
  | some m =>
    if m = "insufficient funds for fee" then
      .error ("not enough funds to create ordinals. Total sats in: " ++
        toString (sumSatoshis cfg.utxos))
    else .error ("failed to calculate fee: " ++ m)
  | none =>
    match signErr with
    | some m => .error ("failed to sign transaction: " ++ m)
    | none => .ok tx

/-! ### `SendUtxos` (`src/unnamed/part_000` lines 12-95) -/

def sendUtxosAssemble (cfg : SendUtxosConfig) : Except String Tx := do
  let tx ← addInputsWithKey cfg.paymentPk "failed to create unlocker"
    cfg.utxos newTransaction
  let tx ← addPayToOutputs "failed to create destination address"
    cfg.payments tx
  addChangeOutput cfg.changeAddress tx

/-- `SendUtxos`: note lines 83-86 — the fee error is wrapped as
`failed to calculate fee: ...` with no total-satoshi rewrapping. -/
def SendUtxos (cfg : SendUtxosConfig) (feeErr signErr : Option String) :
    Except String Tx := do
  let tx ← sendUtxosAssemble cfg
  match feeErr with
  | some m => .error ("failed to calculate fee: " ++ m)
  | none =>
    match signErr with
    | some m => .error ("failed to sign transaction: " ++ m)
    | none => .ok tx

/-! ### `BurnOrdinals` (`src/unnamed/part_004` lines 106-243) -/

/-- The ordinal-input loop of `BurnOrdinals` (lines 130-153): 1-satoshi
check, unlocker, input. -/
def burnOrdinalsOrdinalInputs (ordPk : Option Key) :
    List NftUtxo → Tx → Except String Tx
  | [], tx => .ok tx
  | o :: rest, tx =>
    if o.satoshis ≠ 1 then
      .error "1Sat Ordinal UTXOs must have exactly 1 satoshi"
    else
      match ordPk with
      | none => .error "failed to create ordinal unlocker"
      | some _ => burnOrdinalsOrdinalInputs ordPk rest (tx.addInputFrom o.toUtxo)

/-- Everything `BurnOrdinals` does before the external `tx.Fee` call:
payment inputs, ordinal inputs, one zero-value data-carrier output
(with or without MAP metadata), optional change. -/
def burnOrdinalsAssemble (cfg : BurnOrdinalsConfig) : Except String Tx := do
  let tx ← addInputsWithKey cfg.paymentPk "failed to create payment unlocker"
    cfg.paymentUtxos newTransaction
  let tx ← burnOrdinalsOrdinalInputs cfg.ordPk cfg.ordinals tx
  let tx := tx.addOutput ⟨.opReturn cfg.metadata, 0, false⟩
  addChangeOutput cfg.changeAddress tx

/-- `BurnOrdinals` (lines 231-234: plain fee-error wrapping, no total). -/
def BurnOrdinals (cfg : BurnOrdinalsConfig) (feeErr signErr : Option String) :
    Except String Tx := do
  let tx ← burnOrdinalsAssemble cfg
  match feeErr with
  | some m => .error ("failed to calculate fee: " ++ m)
  | none =>
    match signErr with
    | some m => .error ("failed to sign transaction: " ++ m)
    | none => .ok tx

/-! ### `CancelOrdListings` (`src/unnamed/part_004` lines 499-602) -/

/-- The listing loop (lines 523-559): spend each listing UTXO (no
1-satoshi check) and emit a 1-sat return output to the `OrdPk`-derived
address. -/
def cancelOrdListingsLoop (ordPk : Option Key) :
    List NftUtxo → Tx → Except String Tx
  | [], tx => .ok tx
  | u :: rest, tx =>
    match ordPk with
    | none => .error "failed to create ordinal unlocker"
    | some k =>
      cancelOrdListingsLoop ordPk rest
        ((tx.addInputFrom u.toUtxo).addOutput
          ⟨.p2pkh (addressOfPubKey k), 1, false⟩)

def cancelOrdListingsAssemble (cfg : CancelOrdListingsConfig) :
    Except String Tx := do
  let tx ← addInputsWithKey cfg.paymentPk "failed to create unlocker"
    cfg.utxos newTransaction
  let tx ← cancelOrdListingsLoop cfg.ordPk cfg.listingUtxos tx
  addChangeOutput cfg.changeAddress tx

/-- `CancelOrdListings` (plain fee-error wrapping). -/
def CancelOrdListings (cfg : CancelOrdListingsConfig)
    (feeErr signErr : Option String) : Except String Tx := do
  let tx ← cancelOrdListingsAssemble cfg
  match feeErr with
  | some m => .error ("failed to calculate fee: " ++ m)
  | none =>
    match signErr with
    | some m => .error ("failed to sign transaction: " ++ m)
    | none => .ok tx

/-! ### `TransferOrdToken` and its change helpers (`src/tokens.go`
lines 118-415) -/

namespace TokensGo

/-- The distribution loop of `src/tokens.go` `TransferOrdToken`
(lines 169-210): each output carries `uint64(dist.Tokens)` — the
truncated display float, with no decimals scaling — inside a BSV21
transfer envelope over the destination P2PKH; `OmitMetadata` is
ignored (lines 196-199). -/
def distributionOutputs (tokenId : String) :
    List TokenDistribution → Tx → Except String Tx
  | [], tx => .ok tx
  | d :: rest, tx =>
    match newAddressFromString d.address with
    | .error _ => .error "failed to create destination address"
    | .ok addr =>
      distributionOutputs tokenId rest
        (tx.addOutput
          ⟨.bsv21 "transfer" tokenId (uint64OfFloat d.tokens) (.p2pkh addr),
            1, false⟩)

/-- `createSingleTokenChangeOutput` (`src/tokens.go` lines 376-415):
one 1-sat output, BSV21 transfer envelope over the P2PKH for the
`OrdPk`-derived address (a nil `OrdPk` would fault at
`config.OrdPk.PubKey()`). -/
def createSingleTokenChangeOutput (cfg : TransferBsv21TokenConfig)
    (remainingTokens : Nat) : Except String (List TxOutput) :=
  match cfg.ordPk with
  | none => .error "failed to create token change address"
  | some k =>
    .ok [⟨.bsv21 "transfer" cfg.tokenId remainingTokens
        (.p2pkh (addressOfPubKey k)), 1, false⟩]

/-- `createSplitTokenOutputs` (`src/tokens.go` lines 299-371): the split
amounts of `createSplitAmounts`, each in a BSV21 transfer envelope over
the P2PKH for the `OrdPk`-derived address at 1 sat (`OmitMetadata` is
ignored, lines 354-355; called only with a non-nil split config). -/
def createSplitTokenOutputs (cfg : TransferBsv21TokenConfig)
    (remainingTokens : Nat) : Except String (List TxOutput) :=
  match cfg.splitConfig, cfg.ordPk with
  | some sc, some k =>
    .ok ((createSplitAmounts remainingTokens sc.outputs sc.threshold).map
      (fun amt =>
        ⟨.bsv21 "transfer" cfg.tokenId amt (.p2pkh (addressOfPubKey k)),
          1, false⟩))
  | _, _ => .error "failed to create token change address"

/-- Lines 221-233 / 237-249: split when a split config requests more
than one output, otherwise a single change output. -/
def splitOrSingle (cfg : TransferBsv21TokenConfig) (remainingTokens : Nat)
    (tx : Tx) : Except String Tx :=
  if splitRequested cfg.splitConfig then
    match createSplitTokenOutputs cfg remainingTokens with
    | .error e => .error e
    | .ok outs => .ok (tx.addOutputs outs)
  else
    match createSingleTokenChangeOutput cfg remainingTokens with
    | .error e => .error e
    | .ok outs => .ok (tx.addOutputs outs)

/-- The change-handling block of `TransferOrdToken` (lines 212-251).
Note that it is reached with `remainingTokens` computed by wrapping
`uint64` subtraction, and that no input-sufficiency check precedes it. -/
def tokenChangeStep (cfg : TransferBsv21TokenConfig)
    (totalTokens distributedTokens remainingTokens : Nat) (tx : Tx) :
    Except String Tx :=
  if 0 < remainingTokens ∧ cfg.burn = false then
    if cfg.tokenInputMode = "needed" ∧ distributedTokens < totalTokens then
      splitOrSingle cfg remainingTokens tx
    else if cfg.tokenInputMode = "all" ∨ cfg.tokenInputMode = "" then
      splitOrSingle cfg remainingTokens tx
    else .ok tx
  else .ok tx

/-- `TransferOrdToken` (`src/tokens.go` lines 118-294) with the external
fee/sign outcomes as oracles.  Lines 282-285: the fee error is wrapped
as `failed to calculate fee: ...`, with no total and, notably, with no
check that the distributed amount is covered by the token inputs. -/
def TransferOrdToken (cfg : TransferBsv21TokenConfig)
    (feeErr signErr : Option String) : Except String Tx :=
  if cfg.protocol ≠ "bsv-21" then
    .error ("unsupported token protocol: " ++ cfg.protocol)
  else do
    let tx ← addInputsWithKey cfg.paymentPk "failed to create payment unlocker"
      cfg.utxos newTransaction
    let tx ← addTokenInputs cfg.ordPk "failed to create token unlocker"
      cfg.inputTokens tx
    let totalTokens := u64TokenTotal cfg.inputTokens
    let tx ← distributionOutputs cfg.tokenId cfg.distributions tx
    let distributedTokens := u64DistTotal cfg.distributions
    let remainingTokens := u64sub totalTokens distributedTokens
    let tx ← tokenChangeStep cfg totalTokens distributedTokens remainingTokens tx
    let tx ← addChangeOutput cfg.changeAddress tx
    match feeErr with
    | some m => .error ("failed to calculate fee: " ++ m)
    | none =>
      match signErr with
      | some m => .error ("failed to sign transaction: " ++ m)
      | none => .ok tx

end TokensGo

/-! ### `TransferOrdTokens` and its change helpers
(`src/unnamed/part_003` lines 178-502) -/

namespace Part003

/-- The distribution loop of `TransferOrdTokens` (lines 220-263): the
same truncated `uint64(dist.Tokens)` amount, but `OmitMetadata` is
honoured (a bare P2PKH output instead of the token envelope). -/
def distributionOutputs (tokenId : String) :
    List TokenDistribution → Tx → Except String Tx
  | [], tx => .ok tx
  | d :: rest, tx =>
    match newAddressFromString d.address with
    | .error _ => .error "failed to create destination address"
    | .ok addr =>
      let s : Script :=
        if d.omitMetadata then .p2pkh addr
        else .bsv21 "transfer" tokenId (uint64OfFloat d.tokens) (.p2pkh addr)
      distributionOutputs tokenId rest (tx.addOutput ⟨s, 1, false⟩)

/-- `createSingleTokenChangeOutput` (`src/unnamed/part_003` lines
454-502): honours `SplitConfig.OmitMetadata`. -/
def createSingleTokenChangeOutput (cfg : TransferBsv21TokenConfig)
    (remainingTokens : Nat) : Except String (List TxOutput) :=
  match cfg.ordPk with
  | none => .error "failed to create token change address"
  | some k =>
    let omitMeta : Bool :=
      match cfg.splitConfig with
      | some sc => sc.omitMetadata
      | none => false
    let s : Script :=
      if omitMeta then .p2pkh (addressOfPubKey k)
      else .bsv21 "transfer" cfg.tokenId remainingTokens
        (.p2pkh (addressOfPubKey k))
    .ok [⟨s, 1, false⟩]

/-- `createSplitTokenOutputs` (`src/unnamed/part_003` lines 373-451):
same split amounts, `OmitMetadata` honoured per output. -/
def createSplitTokenOutputs (cfg : TransferBsv21TokenConfig)
    (remainingTokens : Nat) : Except String (List TxOutput) :=
  match cfg.splitConfig, cfg.ordPk with
  | some sc, some k =>
    .ok ((createSplitAmounts remainingTokens sc.outputs sc.threshold).map
      (fun amt =>
        ⟨if sc.omitMetadata then .p2pkh (addressOfPubKey k)
          else .bsv21 "transfer" cfg.tokenId amt (.p2pkh (addressOfPubKey k)),
          1, false⟩))
  | _, _ => .error "failed to create token change address"

/-- Lines 281-291: split or single change. -/
def splitOrSingle (cfg : TransferBsv21TokenConfig) (remainingTokens : Nat)
    (tx : Tx) : Except String Tx :=
  if splitRequested cfg.splitConfig then
    match createSplitTokenOutputs cfg remainingTokens with
    | .error e => .error e
    | .ok outs => .ok (tx.addOutputs outs)
  else
    match createSingleTokenChangeOutput cfg remainingTokens with
    | .error e => .error e
    | .ok outs => .ok (tx.addOutputs outs)

/-- The change-handling block of `TransferOrdTokens` (lines 270-299):
requires a change address or payment key, splits in `all`/default mode,
single change in `needed` mode, and — for any other mode string —
silently re-emits nothing. -/
def tokenChangeStep (cfg : TransferBsv21TokenConfig)
    (remainingTokens : Nat) (tx : Tx) : Except String Tx :=
  if 0 < remainingTokens ∧ cfg.burn = false then
    if cfg.changeAddress = "" ∧ cfg.paymentPk = none then
      .error "ordPk or changeAddress required for token change"
    else if cfg.tokenInputMode = "all" ∨ cfg.tokenInputMode = "" then
      splitOrSingle cfg remainingTokens tx
    else if cfg.tokenInputMode = "needed" then
      match createSingleTokenChangeOutput cfg remainingTokens with
      | .error e => .error e
      | .ok outs => .ok (tx.addOutputs outs)
    else .ok tx
  else .ok tx

/-- Everything `TransferOrdTokens` (`src/unnamed/part_003` lines
180-342) does before the external `tx.Fee` call: protocol check,
token-id match check, token inputs, distribution outputs, the
input-sufficiency check (line 266), token change, payment inputs,
optional change output. -/
def transferOrdTokensAssemble (cfg : TransferBsv21TokenConfig) :
    Except String Tx :=
  if cfg.protocol ≠ "bsv-21" then
    .error ("invalid protocol: expected bsv-21, got " ++ cfg.protocol)
  else if cfg.inputTokens.any (fun t => t.tokenId != cfg.tokenId) then
    .error "input tokens do not match the provided tokenID"
  else do
    let tx ← addTokenInputs cfg.ordPk "private key required for token input"
      cfg.inputTokens newTransaction
    let totalTokens := u64TokenTotal cfg.inputTokens
    let tx ← distributionOutputs cfg.tokenId cfg.distributions tx
    let distributedTokens := u64DistTotal cfg.distributions
    if totalTokens < distributedTokens then
      .error "not enough tokens to satisfy the transfer amount"
    else do
      let remainingTokens := totalTokens - distributedTokens
      let tx ← tokenChangeStep cfg remainingTokens tx
      let tx ← addInputsWithKey cfg.paymentPk
        "private key required for payment utxo" cfg.utxos tx
      addChangeOutput cfg.changeAddress tx

/-- `TransferOrdTokens` (lines 355-361 rewrap the insufficient-funds
fee error with the total input satoshis). -/
def TransferOrdTokens (cfg : TransferBsv21TokenConfig)
    (feeErr signErr : Option String) : Except String Tx := do
  let tx ← transferOrdTokensAssemble cfg
  match feeErr with
  | some m =>
    if m = "insufficient funds for fee" then
      .error ("not enough funds to transfer tokens. Total sats in: " ++
        toString (sumSatoshis cfg.utxos))
    else .error ("failed to calculate fee: " ++ m)
  | none =>
    match signErr with
    | some m => .error ("failed to sign transaction: " ++ m)
    | none => .ok tx

end Part003

/-! ## Helper lemmas about the builder phases -/

theorem addInputsWithKey_some_ok (k : Key) (msg : String) :
    ∀ (us : List Utxo) (tx : Tx),
      addInputsWithKey (some k) msg us tx = .ok (us.foldl Tx.addInputFrom tx) := by
  intro us
  induction us with
  | nil => intro tx; rfl
  | cons u rest ih => intro tx; exact ih (tx.addInputFrom u)

/-- With a key present, the `SendOrdinals` ordinal-input loop fails with
the 1-satoshi error as soon as any ordinal carries a value other than 1,
whatever transaction state it starts from. -/
theorem sendOrdinalsOrdinalInputs_bad (k : Key) :
    ∀ (ords : List NftUtxo), (∃ o ∈ ords, o.satoshis ≠ 1) →
      ∀ tx, sendOrdinalsOrdinalInputs (some k) ords tx =
        .error "1Sat Ordinal utxos must have exactly 1 satoshi" := by
  intro ords
  induction ords with
  | nil =>
    rintro ⟨o, ho, -⟩
    simp at ho
  | cons o rest ih =>
    rintro ⟨o', ho', hne⟩ tx
    rw [sendOrdinalsOrdinalInputs]
    by_cases h1 : o.satoshis ≠ 1
    · rw [if_pos h1]
    · rw [if_neg h1]
      push_neg at h1
      have hmem : o' ∈ rest := by
        rcases List.mem_cons.mp ho' with rfl | hmem
        · exact absurd h1 hne
        · exact hmem
      exact ih ⟨o', hmem, hne⟩ _

/-- Same statement for the `BurnOrdinals` ordinal-input loop. -/
theorem burnOrdinalsOrdinalInputs_bad (k : Key) :
    ∀ (ords : List NftUtxo), (∃ o ∈ ords, o.satoshis ≠ 1) →
      ∀ tx, burnOrdinalsOrdinalInputs (some k) ords tx =
        .error "1Sat Ordinal UTXOs must have exactly 1 satoshi" := by
  intro ords
  induction ords with
  | nil =>
    rintro ⟨o, ho, -⟩
    simp at ho
  | cons o rest ih =>
    rintro ⟨o', ho', hne⟩ tx
    rw [burnOrdinalsOrdinalInputs]
    by_cases h1 : o.satoshis ≠ 1
    · rw [if_pos h1]
    · rw [if_neg h1]
      push_neg at h1
      have hmem : o' ∈ rest := by
        rcases List.mem_cons.mp ho' with rfl | hmem
        · exact absurd h1 hne
        · exact hmem
      exact ih ⟨o', hmem, hne⟩ _

/-! ## Sample configurations used by the concrete evaluations -/

/-- A transfer whose single distribution (10 tokens) exceeds the single
token input (5 raw units): the over-distribution scenario. -/
def overdistributedTransferConfig : TransferBsv21TokenConfig :=
  { protocol := "bsv-21"
    tokenId := "tid"
    utxos := [⟨"ptx", 0, "pscript", 100000⟩]
    inputTokens := [⟨⟨"ttx", 1, "tscript", 1⟩, "tid", "bsv-21", 5, 0⟩]
    distributions := [⟨"dest", 10, false⟩]
    paymentPk := some 1
    ordPk := some 2
    burn := false
    changeAddress := "chg"
    satsPerKb := 0
    tokenInputMode := ""
    splitConfig := none
    decimals := 0 }

/-- A transfer distributing the display amount `0.5` of a 2-decimals
token (input 100 raw units): the fractional-display scenario. -/
def fractionalDistributionConfig : TransferBsv21TokenConfig :=
  { protocol := "bsv-21"
    tokenId := "tid"
    utxos := [⟨"ptx", 0, "pscript", 100000⟩]
    inputTokens := [⟨⟨"ttx", 1, "tscript", 1⟩, "tid", "bsv-21", 100, 2⟩]
    distributions := [⟨"dest", mkRat 1 2, false⟩]
    paymentPk := some 1
    ordPk := some 2
    burn := false
    changeAddress := "chg"
    satsPerKb := 0
    tokenInputMode := ""
    splitConfig := none
    decimals := 2 }

/-- A transfer distributing 40 of 100 input units. -/
def partialTransferConfig : TransferBsv21TokenConfig :=
  { protocol := "bsv-21"
    tokenId := "tid"
    utxos := [⟨"ptx", 0, "pscript", 100000⟩]
    inputTokens := [⟨⟨"ttx", 1, "tscript", 1⟩, "tid", "bsv-21", 100, 0⟩]
    distributions := [⟨"dest", 40, false⟩]
    paymentPk := some 1
    ordPk := some 2
    burn := false
    changeAddress := "chg"
    satsPerKb := 0
    tokenInputMode := ""
    splitConfig := none
    decimals := 0 }

/-- The same partial transfer with `Burn` requested. -/
def burnTransferConfig : TransferBsv21TokenConfig :=
  { partialTransferConfig with burn := true }

/-- C1. Concrete evaluation of the over-distribution scenario, plus the
remainder behaviour on in-range inputs.  `TransferOrdTokens`
(`src/unnamed/part_003`) rejects the over-distribution; the remainder
(60 of 100) is re-emitted as a token change output unless `Burn` is set,
in which case no token change output appears.  `TransferOrdToken`
(`src/tokens.go`) has no such check: on the same over-distributed input
it succeeds and — via wrapping `uint64` subtraction — emits a token
change output of `2^64 - 5` raw units. -/
theorem transferOverdistribution_eval :
    Part003.TransferOrdTokens overdistributedTransferConfig none none =
      .error "not enough tokens to satisfy the transfer amount" ∧
    resultIsOk (TokensGo.TransferOrdToken overdistributedTransferConfig
      none none) = true ∧
    ((resultOutputs (TokensGo.TransferOrdToken overdistributedTransferConfig
        none none)).any (fun o =>
      o.lockingScript ==
        Script.bsv21 "transfer" "tid" (U64 - 5)
          (.p2pkh (addressOfPubKey 2)))) = true ∧
    ((resultOutputs (Part003.TransferOrdTokens partialTransferConfig
        none none)).any (fun o =>
      o.lockingScript ==
        Script.bsv21 "transfer" "tid" 60 (.p2pkh (addressOfPubKey 2)))) =
      true ∧
    ((resultOutputs (Part003.TransferOrdTokens burnTransferConfig
        none none)).all (fun o =>
      !(o.lockingScript ==
        Script.bsv21 "transfer" "tid" 60 (.p2pkh (addressOfPubKey 2))))) =
      true := by
  decide

/-- C4. Concrete evaluation of the fractional-display scenario: both
transfer builders write the raw amount `uint64(0.5) = 0` into the
distribution output — plain truncation that ignores the token's
2 decimals — whereas the repository's own conversion `FromToken`
(and the spec) give `round(0.5 * 10^2) = 50`. -/
theorem transferDistribution_truncates_eval :
    (resultOutputs (TokensGo.TransferOrdToken fractionalDistributionConfig
        none none)).head? =
      some ⟨Script.bsv21 "transfer" "tid" 0 (.p2pkh "dest"), 1, false⟩ ∧
    (resultOutputs (Part003.TransferOrdTokens fractionalDistributionConfig
        none none)).head? =
      some ⟨Script.bsv21 "transfer" "tid" 0 (.p2pkh "dest"), 1, false⟩ ∧
    FromToken (mkRat 1 2) 2 = .ok 50 := by
  refine ⟨by decide, by decide, ?_⟩
  have hv : (mkRat 1 2 : ℚ) = 1 / 2 := by norm_num [mkRat]
  rw [hv, FromToken, if_neg (by norm_num),
    if_neg (by norm_num : ¬ ((2 : ℚ) ^ 64 / (10 : ℚ) ^ 2 < 1 / 2)),
    mathRound_eq_round _ (by norm_num)]
  norm_num [round_eq]
  rfl

/-! ## C3: the insufficient-funds error message -/

/-- A plain UTXO send used as the `SendUtxos` scenario. -/
def plainSendConfig : SendUtxosConfig :=
  { utxos := [⟨"ptx", 0, "pscript", 12345⟩]
    paymentPk := some 1
    payments := [⟨"dest", 1000⟩]
    changeAddress := "chg"
    satsPerKb := 0 }

/-- C3, counterexample.  `SendUtxos` fails on insufficient funds with the
bare wrapped fee error: the message does not contain the total input
satoshis (12345). -/
theorem sendUtxos_fee_error_lacks_total :
    SendUtxos plainSendConfig (some "insufficient funds for fee") none =
      .error "failed to calculate fee: insufficient funds for fee" ∧
    sumSatoshis plainSendConfig.utxos = 12345 ∧
    containsSubstring "failed to calculate fee: insufficient funds for fee"
      "12345" = false := by
  decide

/-- C3, amended.  The builders that do rewrap the library's
`insufficient funds for fee` error — `CreateOrdinals`, `SendOrdinals`
and `TransferOrdTokens` — produce, whenever their assembly phase
succeeds and the fee call fails that way, an error message that carries
the total input satoshis (visible as the trailing `toString` of the
total). -/
theorem insufficientFunds_includes_total :
    (∀ (cfg : CreateOrdinalsConfig) (signErr : Option String),
      resultIsOk (createOrdinalsAssemble cfg) = true →
      CreateOrdinals cfg (some "insufficient funds for fee") signErr =
        .error ("not enough funds to create ordinals. Total sats in: " ++
          toString (sumSatoshis cfg.utxos))) ∧
    (∀ (cfg : SendOrdinalsConfig) (signErr : Option String),
      resultIsOk (sendOrdinalsAssemble cfg) = true →
      SendOrdinals cfg (some "insufficient funds for fee") signErr =
        .error ("not enough funds to send ordinals. Total sats in: " ++
          toString (sumSatoshis cfg.paymentUtxos))) ∧
    (∀ (cfg : TransferBsv21TokenConfig) (signErr : Option String),
      resultIsOk (Part003.transferOrdTokensAssemble cfg) = true →
      Part003.TransferOrdTokens cfg (some "insufficient funds for fee")
          signErr =
        .error ("not enough funds to transfer tokens. Total sats in: " ++
          toString (sumSatoshis cfg.utxos))) := by
  refine ⟨?_, ?_, ?_⟩
  · intro cfg signErr h
    unfold CreateOrdinals
    cases hasm : createOrdinalsAssemble cfg with
    | error e => rw [hasm] at h; simp [resultIsOk] at h
    | ok tx => rfl
  · intro cfg signErr h
    unfold SendOrdinals
    cases hasm : sendOrdinalsAssemble cfg with
    | error e => rw [hasm] at h; simp [resultIsOk] at h
    | ok tx => rfl
  · intro cfg signErr h
    unfold Part003.TransferOrdTokens
    cases hasm : Part003.transferOrdTokensAssemble cfg with
    | error e => rw [hasm] at h; simp [resultIsOk] at h
    | ok tx => rfl

/-- An inscription creation scenario whose assembly succeeds. -/
def insufficientCreateConfig : CreateOrdinalsConfig :=
  { utxos := [⟨"ptx", 0, "pscript", 500⟩]
    destinations := [⟨"dest", some "insc", false⟩]
    paymentPk := some 1
    changeAddress := "chg"
    satsPerKb := 0
    additionalPayments := [] }

/-- An ordinal send scenario whose assembly succeeds. -/
def insufficientSendConfig : SendOrdinalsConfig :=
  { paymentUtxos := [⟨"ptx", 0, "pscript", 500⟩]
    ordinals := [⟨⟨"otx", 0, "oscript", 1⟩, "text/plain", "col"⟩]
    paymentPk := some 1
    ordPk := some 2
    destinations := [⟨"dest", none, false⟩]
    changeAddress := "chg"
    satsPerKb := 0
    additionalPayments := []
    enforceUniformSend := false }

/-- Witness for C3's amended theorem at concrete configurations whose
assembly phase succeeds. -/
theorem insufficientFunds_includes_total_witness :
    resultIsOk (createOrdinalsAssemble insufficientCreateConfig) = true ∧
    CreateOrdinals insufficientCreateConfig
        (some "insufficient funds for fee") none =
      .error ("not enough funds to create ordinals. Total sats in: " ++
        toString (sumSatoshis insufficientCreateConfig.utxos)) ∧
    SendOrdinals insufficientSendConfig
        (some "insufficient funds for fee") none =
      .error ("not enough funds to send ordinals. Total sats in: " ++
        toString (sumSatoshis insufficientSendConfig.paymentUtxos)) ∧
    Part003.TransferOrdTokens fractionalDistributionConfig
        (some "insufficient funds for fee") none =
      .error ("not enough funds to transfer tokens. Total sats in: " ++
        toString (sumSatoshis fractionalDistributionConfig.utxos)) :=
  ⟨by decide,
   insufficientFunds_includes_total.1 insufficientCreateConfig none (by decide),
   insufficientFunds_includes_total.2.1 insufficientSendConfig none (by decide),
   insufficientFunds_includes_total.2.2 fractionalDistributionConfig none
     (by decide)⟩

/-! ## C7: the 1-satoshi ordinal-shape guard -/

/-- C7, amended.  `SendOrdinals` and `BurnOrdinals` reject any run in
which some spent ordinal carries a value other than 1 satoshi (given
their keys are provided, and — for `SendOrdinals` — the uniform-send
guard does not fire first): the ordinal-input phase itself already
fails, from any transaction state, so no output has been emitted; the
builders return that error for every outcome of the external fee and
signing calls; and the error message mentions `exactly 1 satoshi`. -/
theorem ordinal_one_sat_guard :
    (∀ (cfg : SendOrdinalsConfig) (k : Key) (feeErr signErr : Option String),
      cfg.ordPk = some k →
      ¬(cfg.enforceUniformSend = true ∧
        cfg.destinations.length ≠ cfg.ordinals.length) →
      (∃ o ∈ cfg.ordinals, o.satoshis ≠ 1) →
      (∀ tx, sendOrdinalsOrdinalInputs cfg.ordPk cfg.ordinals tx =
        .error "1Sat Ordinal utxos must have exactly 1 satoshi") ∧
      SendOrdinals cfg feeErr signErr =
        .error "1Sat Ordinal utxos must have exactly 1 satoshi") ∧
    (∀ (cfg : BurnOrdinalsConfig) (k kp : Key) (feeErr signErr : Option String),
      cfg.ordPk = some k → cfg.paymentPk = some kp →
      (∃ o ∈ cfg.ordinals, o.satoshis ≠ 1) →
      (∀ tx, burnOrdinalsOrdinalInputs cfg.ordPk cfg.ordinals tx =
        .error "1Sat Ordinal UTXOs must have exactly 1 satoshi") ∧
      BurnOrdinals cfg feeErr signErr =
        .error "1Sat Ordinal UTXOs must have exactly 1 satoshi") ∧
    containsSubstring "1Sat Ordinal utxos must have exactly 1 satoshi"
      "exactly 1 satoshi" = true ∧
    containsSubstring "1Sat Ordinal UTXOs must have exactly 1 satoshi"
      "exactly 1 satoshi" = true := by
  refine ⟨?_, ?_, by decide, by decide⟩
  · intro cfg k feeErr signErr hk huni hex
    have hphase : ∀ tx, sendOrdinalsOrdinalInputs cfg.ordPk cfg.ordinals tx =
        .error "1Sat Ordinal utxos must have exactly 1 satoshi" := by
      intro tx
      rw [hk]
      exact sendOrdinalsOrdinalInputs_bad k cfg.ordinals hex tx
    refine ⟨hphase, ?_⟩
    unfold SendOrdinals sendOrdinalsAssemble
    rw [if_neg huni, hphase newTransaction]
    rfl
  · intro cfg k kp feeErr signErr hk hkp hex
    have hphase : ∀ tx, burnOrdinalsOrdinalInputs cfg.ordPk cfg.ordinals tx =
        .error "1Sat Ordinal UTXOs must have exactly 1 satoshi" := by
      intro tx
      rw [hk]
      exact burnOrdinalsOrdinalInputs_bad k cfg.ordinals hex tx
    refine ⟨hphase, ?_⟩
    unfold BurnOrdinals burnOrdinalsAssemble
    rw [hkp, addInputsWithKey_some_ok kp _ cfg.paymentUtxos newTransaction]
    simp only [hphase]
    rfl

/-- A 2-satoshi "ordinal" being sent. -/
def badSendConfig : SendOrdinalsConfig :=
  { paymentUtxos := []
    ordinals := [⟨⟨"otx", 0, "oscript", 2⟩, "text/plain", "col"⟩]
    paymentPk := some 1
    ordPk := some 2
    destinations := []
    changeAddress := "chg"
    satsPerKb := 0
    additionalPayments := []
    enforceUniformSend := false }

/-- A 2-satoshi "ordinal" being burned. -/
def badBurnConfig : BurnOrdinalsConfig :=
  { paymentUtxos := [⟨"ptx", 0, "pscript", 1000⟩]
    paymentPk := some 1
    ordinals := [⟨⟨"otx", 0, "oscript", 2⟩, "text/plain", "col"⟩]
    ordPk := some 2
    metadata := []
    changeAddress := "chg"
    satsPerKb := 0 }

/-- Witness for C7's amended theorem: sending / burning a 2-satoshi
ordinal fails with the 1-satoshi error. -/
theorem ordinal_one_sat_guard_witness :
    SendOrdinals badSendConfig none none =
      .error "1Sat Ordinal utxos must have exactly 1 satoshi" ∧
    BurnOrdinals badBurnConfig none none =
      .error "1Sat Ordinal UTXOs must have exactly 1 satoshi" :=
  ⟨(ordinal_one_sat_guard.1 badSendConfig 2 none none rfl (by decide)
      (by decide)).2,
   (ordinal_one_sat_guard.2.1 badBurnConfig 2 1 none none rfl rfl
      (by decide)).2⟩

/-- A 2-satoshi NFT listing being cancelled. -/
def listedNftConfig : CancelOrdListingsConfig :=
  { utxos := []
    listingUtxos := [⟨⟨"ltx", 0, "lscript", 2⟩, "text/plain", "col"⟩]
    ordPk := some 2
    paymentPk := some 1
    changeAddress := "chg"
    satsPerKb := 0 }

/-- C7, counterexample.  `CancelOrdListings` spends an ordinal/NFT input
of 2 satoshis without any check: the build succeeds (under successful
external fee/sign calls) and emits outputs, so not every operation that
spends an ordinal input rejects values other than 1 satoshi. -/
theorem cancelOrdListings_spends_two_sat_ordinal :
    (listedNftConfig.listingUtxos.any (fun o => o.satoshis != 1)) = true ∧
    resultIsOk (CancelOrdListings listedNftConfig none none) = true ∧
    (resultOutputs (CancelOrdListings listedNftConfig none none)).length =
      2 := by
  decide

/-! ## C10: the token change outputs -/

/-- C10, counterexample.  A token change output is not a plain P2PKH
output: it is a BSV21 transfer envelope wrapping the P2PKH lock. -/
theorem tokenChange_not_plain_p2pkh :
    TokensGo.createSingleTokenChangeOutput fractionalDistributionConfig 5 =
      .ok [⟨Script.bsv21 "transfer" "tid" 5 (.p2pkh (addressOfPubKey 2)),
        1, false⟩] ∧
    Script.isP2pkh
      (Script.bsv21 "transfer" "tid" 5 (.p2pkh (addressOfPubKey 2))) =
      false := by
  decide

/-- C10, amended.  Every token change output of the `src/tokens.go`
transfer builder — the single change output and every split output —
carries exactly 1 satoshi and is locked to a BSV21 transfer envelope
wrapping the P2PKH lock for the address derived from the `OrdPk`
private key's public key (never a caller-supplied address). -/
theorem tokenChange_envelope_spec (cfg : TransferBsv21TokenConfig) (k : Key)
    (remaining : Nat) (hk : cfg.ordPk = some k) :
    TokensGo.createSingleTokenChangeOutput cfg remaining =
      .ok [⟨.bsv21 "transfer" cfg.tokenId remaining
        (.p2pkh (addressOfPubKey k)), 1, false⟩] ∧
    ∀ outs, TokensGo.createSplitTokenOutputs cfg remaining = .ok outs →
      ∀ o ∈ outs, o.satoshis = 1 ∧ o.change = false ∧
        ∃ amt, o.lockingScript =
          .bsv21 "transfer" cfg.tokenId amt (.p2pkh (addressOfPubKey k)) := by
  constructor
  · rw [TokensGo.createSingleTokenChangeOutput, hk]
  · intro outs houts
    cases hsc : cfg.splitConfig with
    | none =>
      rw [TokensGo.createSplitTokenOutputs, hsc, hk] at houts
      exact absurd houts (by simp)
    | some sc =>
      rw [TokensGo.createSplitTokenOutputs, hsc, hk] at houts
      have houts' := (Except.ok.injEq _ _).mp houts.symm
      subst houts'
      intro o ho
      rw [List.mem_map] at ho
      obtain ⟨amt, -, rfl⟩ := ho
      exact ⟨rfl, rfl, amt, rfl⟩

/-- Witness for C10's amended theorem at a concrete configuration. -/
theorem tokenChange_envelope_spec_witness :
    TokensGo.createSingleTokenChangeOutput fractionalDistributionConfig 7 =
      .ok [⟨.bsv21 "transfer" fractionalDistributionConfig.tokenId 7
        (.p2pkh (addressOfPubKey 2)), 1, false⟩] ∧
    ∀ outs, TokensGo.createSplitTokenOutputs fractionalDistributionConfig 7 =
        .ok outs →
      ∀ o ∈ outs, o.satoshis = 1 ∧ o.change = false ∧
        ∃ amt, o.lockingScript =
          .bsv21 "transfer" fractionalDistributionConfig.tokenId amt
            (.p2pkh (addressOfPubKey 2)) :=
  tokenChange_envelope_spec fractionalDistributionConfig 2 7 rfl

end OrdinalsLib
